/-
Verification of the basic-memory knowledge-graph core against its
natural-language specification.

The development shallowly embeds the relevant parts of the source:

* `Store` namespace — the SQLAlchemy data model of
  `src/basic_memory/models.py` (tables `entity`, `observation`,
  `relation`), together with the SQL-level constraints that the schema
  declares: NOT NULL columns, foreign keys with `ondelete="CASCADE"`,
  and `PRAGMA foreign_keys=ON` (set per session in
  `src/basic_memory/db.py`).  Row deletion and insertion are modelled
  as pure functions on an explicit store state.

* `Markdown` namespace — the parsed-markdown data model
  (`EntityMarkdown`, inline observations and relations) and the
  conversion functions of `src/basic_memory/markdown/utils.py` and
  `src/basic_memory/markdown/entity_parser.py`.

* `Context` namespace — the recursive-CTE traversal of
  `src/basic_memory/services/context_service.py` (`find_connected`,
  `build_context`), modelled as breadth-indexed level sets over an
  explicit search-index table.

* `Cli` namespace — the exit-code behaviour of the command-line sync
  driver (`src/basic_memory/cli/commands/sync.py`, `status.py`).
-/
import Mathlib

namespace Store

/-- A row of the `entity` table (`models.py`, class `Entity`).
Dates are modelled as naturals (epoch instants). -/
structure EntityRow where
  id : String
  name : String
  entity_type : String
  description : String
  refs : String
  created_at : Nat
  updated_at : Nat
deriving DecidableEq, Repr

/-- A row of the `observation` table (`models.py`, class `Observation`).
`entity_id` carries `ForeignKey("entity.id", ondelete="CASCADE")`;
`context` is the only nullable column (`Mapped[str | None]`). -/
structure ObservationRow where
  id : String
  entity_id : String
  content : String
  created_at : Nat
  context : Option String
deriving DecidableEq, Repr

/-- A row of the `relation` table (`models.py`, class `Relation`).
Both `from_id` and `to_id` are declared `Mapped[str]` (hence NOT NULL)
with `ForeignKey("entity.id", ondelete="CASCADE")`. -/
structure RelationRow where
  id : String
  from_id : String
  to_id : String
  relation_type : String
  created_at : Nat
  context : Option String
deriving DecidableEq, Repr

/-- The store state: the three tables of `models.py`. -/
structure DB where
  entities : List EntityRow
  observations : List ObservationRow
  relations : List RelationRow
deriving DecidableEq, Repr

/-- Declared nullability and cascade behaviour of one mapped column, as
SQLAlchemy derives it from `models.py`: `Mapped[str]` maps to a NOT NULL
column, `Mapped[str | None]` to a nullable one. -/
structure ColumnSpec where
  nullable : Bool
  foreign_key : Option String
  ondelete_cascade : Bool
deriving DecidableEq, Repr

/-- `Relation.from_id` column: `Mapped[str]` with
`ForeignKey("entity.id", ondelete="CASCADE")` (`models.py` lines 105-109). -/
def relation_from_id_column : ColumnSpec :=
  { nullable := false, foreign_key := some "entity.id", ondelete_cascade := true }

/-- `Relation.to_id` column: `Mapped[str]` with
`ForeignKey("entity.id", ondelete="CASCADE")` (`models.py` lines 110-114).
Being `Mapped[str]` and not `Mapped[str | None]`, it is NOT NULL. -/
def relation_to_id_column : ColumnSpec :=
  { nullable := false, foreign_key := some "entity.id", ondelete_cascade := true }

/-- `Relation.context` column: `Mapped[str | None]` (`models.py` line 120),
hence nullable, no foreign key. -/
def relation_context_column : ColumnSpec :=
  { nullable := true, foreign_key := none, ondelete_cascade := false }

/-- `Observation.entity_id` column (`models.py` lines 78-82). -/
def observation_entity_id_column : ColumnSpec :=
  { nullable := false, foreign_key := some "entity.id", ondelete_cascade := true }

/-- Deleting an entity row under `PRAGMA foreign_keys=ON`
(`db.py`, `session`): the `ondelete="CASCADE"` clauses on
`observation.entity_id`, `relation.from_id` and `relation.to_id`
(equivalently the `cascade="all, delete-orphan"` relationships
`Entity.observations`, `Entity.outgoing_relations`,
`Entity.incoming_relations` in `models.py`) remove every observation
owned by the entity and every relation incident to it in either
direction. -/
def delete_entity (db : DB) (eid : String) : DB :=
  { entities := db.entities.filter (fun e => e.id ≠ eid),
    observations := db.observations.filter (fun o => o.entity_id ≠ eid),
    relations := db.relations.filter (fun r => r.from_id ≠ eid ∧ r.to_id ≠ eid) }

/-- Values supplied to an INSERT on the `relation` table; any column may
be left NULL by the caller, the schema then decides whether the row is
admissible. -/
structure RelationInsert where
  id : Option String
  from_id : Option String
  to_id : Option String
  relation_type : Option String
  created_at : Nat
  context : Option String
deriving DecidableEq, Repr

/-- Inserting a relation row under the schema of `models.py` with
`PRAGMA foreign_keys=ON`: the NOT NULL columns `id`, `from_id`, `to_id`,
`relation_type` must be present, the primary key must be fresh, and the
foreign keys on `from_id` and `to_id` must reference existing entity
rows.  A violating INSERT fails (returns `none`). -/
def insert_relation (db : DB) (v : RelationInsert) : Option DB :=
  match v.id, v.from_id, v.to_id, v.relation_type with
  | some i, some f, some t, some rt =>
      if (db.entities.any (fun e => e.id = f)) ∧ (db.entities.any (fun e => e.id = t)) ∧
         ¬ (db.relations.any (fun r => r.id = i)) then
        some { db with
               relations := db.relations ++
                 [{ id := i, from_id := f, to_id := t, relation_type := rt,
                    created_at := v.created_at, context := v.context }] }
      else none
  | _, _, _, _ => none

/-- Referential integrity of the relation table: every persisted
relation's `from_id` and `to_id` reference existing entity rows. -/
def relationsResolved (db : DB) : Prop :=
  ∀ r ∈ db.relations,
    (∃ e ∈ db.entities, e.id = r.from_id) ∧ (∃ e ∈ db.entities, e.id = r.to_id)

instance (db : DB) : Decidable (relationsResolved db) := by
  unfold relationsResolved
  infer_instance

end Store

namespace Knowledge

/-- Modelled from the spec: the knowledge-layer `Observation` model used
by `markdown/utils.py` (the richer `basic_memory.models` module that
declares it, with `category`, `tags` and `ObservationCategory`, is not
under src/; its attribute usage in `utils.py` and spec section 3 fix the
fields).  `category` is a plain string on the stored row, `tags` an
ordered list that may be empty, `context` optional. -/
structure Observation where
  category : String
  content : String
  tags : List String
  context : Option String
deriving DecidableEq, Repr

/-- Modelled from the spec: the knowledge-layer `Relation` model used by
`markdown/utils.py` (missing from src/).  `to_entity_title` is the title
of the resolved target entity when `to_entity` is loaded, `to_name` the
verbatim link text retained for reresolution (spec section 3). -/
structure Relation where
  relation_type : String
  to_entity_title : Option String
  to_name : String
  context : Option String
deriving DecidableEq, Repr

/-- Modelled from the spec: the knowledge-layer `Entity` model used by
`markdown/utils.py` (missing from src/): permalink, file path, title,
type, timestamps, pass-through metadata, owned observations and outgoing
relations (spec section 3). -/
structure Entity where
  title : String
  entity_type : String
  permalink : String
  file_path : String
  content_type : String
  created_at : Nat
  updated_at : Nat
  entity_metadata : List (String × String)
  observations : List Observation
  outgoing_relations : List Relation
deriving DecidableEq, Repr

end Knowledge

namespace Markdown

/-- An inline observation as parsed from a markdown bullet line
(`markdown/schemas.py` is not under src/; fields modelled from the spec,
section 4.1: optional category, content, optional tags, optional
context). -/
structure Observation where
  category : Option String
  content : String
  tags : Option (List String)
  context : Option String
deriving DecidableEq, Repr

/-- An inline relation as parsed from a markdown bullet line
(spec section 4.1): `- <type> [[<target>]] (<context>)`. -/
structure Relation where
  rel_type : String
  target : String
  context : Option String
deriving DecidableEq, Repr

/-- Modelled from the spec: one line of a markdown body as seen by the
line-scoped body scanner (spec section 4.1; the markdown-it token
plugins `markdown/plugins.py` are not under src/).  A line is either
ordinary prose, an observation bullet, or a relation bullet; `str(o)` of
a parsed construct is its bullet line, so replacing it by the empty
string turns the line into empty prose. -/
inductive BodyLine
  | prose (text : String)
  | obs (o : Observation)
  | rel (r : Relation)
deriving DecidableEq, Repr

/-- The observations appearing inline in a body, in order. -/
def bodyObservations (content : List BodyLine) : List Observation :=
  content.filterMap (fun l => match l with | .obs o => some o | _ => none)

/-- The relations appearing inline in a body, in order. -/
def bodyRelations (content : List BodyLine) : List Relation :=
  content.filterMap (fun l => match l with | .rel r => some r | _ => none)

/-- Result of `parse` in `markdown/entity_parser.py`: the content plus
the observations and relations collected from its tokens. -/
structure EntityContent where
  content : List BodyLine
  observations : List Observation
  relations : List Relation
deriving DecidableEq, Repr

/-- `parse` (`markdown/entity_parser.py` lines 31-54): scan the content
and collect every inline observation and relation, leaving the content
itself untouched. -/
def parse (content : List BodyLine) : EntityContent :=
  { content := content,
    observations := bodyObservations content,
    relations := bodyRelations content }

/-- Frontmatter of a parsed entity file (`EntityFrontmatter`; the
schemas module is not under src/, recognized keys from spec section
4.1). -/
structure EntityFrontmatter where
  title : Option String
  fm_type : String
  permalink : Option String
  created : Nat
  modified : Nat
  tags : List String
  metadata : List (String × String)
deriving DecidableEq, Repr

/-- A parsed markdown entity file (`EntityMarkdown`): frontmatter, body
content, and the inline/append observations and relations. -/
structure EntityMarkdown where
  frontmatter : EntityFrontmatter
  content : Option (List BodyLine)
  observations : List Observation
  relations : List Relation
deriving DecidableEq, Repr

/-- `content.replace(str(o), "")` for an observation bullet line
(`markdown/utils.py` line 70): every line that is exactly that bullet
becomes empty prose. -/
def removeObservation (o : Observation) (content : List BodyLine) : List BodyLine :=
  content.map (fun l => if l = .obs o then .prose "" else l)

/-- `content.replace(str(r), "")` for a relation bullet line
(`markdown/utils.py` line 74). -/
def removeRelation (r : Relation) (content : List BodyLine) : List BodyLine :=
  content.map (fun l => if l = .rel r then .prose "" else l)

/-- The markdown form of a stored observation
(`markdown/utils.py` lines 37-45): empty tag lists render as `None`. -/
def obsToMarkdown (o : Knowledge.Observation) : Observation :=
  { category := some o.category,
    content := o.content,
    tags := if o.tags = [] then none else some o.tags,
    context := o.context }

/-- The markdown form of a stored outgoing relation
(`markdown/utils.py` lines 47-54): the target is the resolved entity's
title when available, otherwise the retained `to_name`. -/
def relToMarkdown (r : Knowledge.Relation) : Relation :=
  { rel_type := r.relation_type,
    target := match r.to_entity_title with | some t => t | none => r.to_name,
    context := r.context }

/-- Frontmatter assembled by `entity_model_to_markdown`
(`markdown/utils.py` lines 29-34). -/
def frontmatterOfEntity (e : Knowledge.Entity) : EntityFrontmatter :=
  { title := some e.title,
    fm_type := if e.entity_type = "" then "note" else e.entity_type,
    permalink := some e.permalink,
    created := e.created_at,
    modified := e.updated_at,
    tags := [],
    metadata := e.entity_metadata }

/-- The removal loop of `entity_model_to_markdown` for observations
(`markdown/utils.py` lines 68-70): every inline observation absent from
the entity model is erased from the content. -/
def scrubObservations (entity_observations inline : List Observation)
    (c : List BodyLine) : List BodyLine :=
  inline.foldl
    (fun acc o => if o ∉ entity_observations then removeObservation o acc else acc) c

/-- The removal loop of `entity_model_to_markdown` for relations
(`markdown/utils.py` lines 72-74). -/
def scrubRelations (entity_relations inline : List Relation)
    (c : List BodyLine) : List BodyLine :=
  inline.foldl
    (fun acc r => if r ∉ entity_relations then removeRelation r acc else acc) c

/-- `entity_model_to_markdown` (`markdown/utils.py` lines 10-81):
render an entity model to markdown.  The observations/relations fields
of the result are exactly the store items not already appearing inline
in the given content; every inline item absent from the store is erased
from the content via string replacement. -/
def entity_model_to_markdown (entity : Knowledge.Entity) (content : Option (List BodyLine)) :
    EntityMarkdown :=
  let entity_observations := entity.observations.map obsToMarkdown
  let entity_relations := entity.outgoing_relations.map relToMarkdown
  match content with
  | none =>
      { frontmatter := frontmatterOfEntity entity,
        content := none,
        observations := entity_observations,
        relations := entity_relations }
  | some c =>
      let ec := parse c
      { frontmatter := frontmatterOfEntity entity,
        content := some (scrubRelations entity_relations ec.relations
          (scrubObservations entity_observations ec.observations c)),
        observations := entity_observations.filter (fun o => o ∉ ec.observations),
        relations := entity_relations.filter (fun r => r ∉ ec.relations) }

/-- Modelled from the spec: serializing an `EntityMarkdown` back to file
text (the serializer `markdown/markdown_processor.py` is not under
src/): the body content followed by the not-yet-inline observations and
relations appended as bullet lines (spec section 4.1, round-trip
rule). -/
def renderedBody (em : EntityMarkdown) : List BodyLine :=
  (match em.content with | some c => c | none => []) ++
    em.observations.map .obs ++ em.relations.map .rel

/-- Modelled from the spec: the `ObservationCategory` enumeration
(absent from src/'s `models.py`; values from spec section 3). -/
def observationCategories : List String :=
  ["note", "tech", "design", "issue", "todo", "question"]

/-- `get_valid_category` (`markdown/utils.py` lines 95-98): a missing or
falsy category, or one outside the enumeration, becomes `note`; an
enumerated category is kept. -/
def get_valid_category (category : Option String) : String :=
  match category with
  | none => "note"
  | some c => if c = "" then "note" else if c ∈ observationCategories then c else "note"

/-- Whether a file name carries the `.md` extension (spelled on the
character list so that it evaluates by kernel reduction). -/
def endsWithMd (name : String) : Bool :=
  decide (name.data.reverse.take 3 = ['d', 'm', '.'])

/-- Strip a trailing `.md` extension. -/
def stripMd (name : String) : String :=
  if endsWithMd name then ⟨name.data.dropLast.dropLast.dropLast⟩ else name

/-- Modelled from the spec: `generate_permalink` of `basic_memory/utils.py`
(not under src/): derive a permalink from a file path by lowercasing,
replacing non-alphanumeric runs by `-`, and stripping the `.md` suffix
(spec section 3). -/
def generate_permalink (file_path : String) : String :=
  let stem := stripMd file_path
  let lowered := stem.toLower
  let dashed := lowered.map (fun c => if c.isAlphanum ∨ c = '/' then c else '-')
  dashed

/-- `entity_model_from_markdown` (`markdown/utils.py` lines 84-121):
convert a parsed markdown file to an entity model.  Observations are
mapped across (with category validation); relations are NOT included —
the `Entity` is constructed without `outgoing_relations`, so they remain
empty and must be written by a separate step. -/
def entity_model_from_markdown (file_path : String) (markdown : EntityMarkdown) :
    Knowledge.Entity :=
  let stem := stripMd file_path
  { title := match markdown.frontmatter.title with
      | some t => if t = "" then stem else t
      | none => stem,
    entity_type := markdown.frontmatter.fm_type,
    permalink := match markdown.frontmatter.permalink with
      | some p => if p = "" then generate_permalink file_path else p
      | none => generate_permalink file_path,
    file_path := file_path,
    content_type := "text/markdown",
    created_at := markdown.frontmatter.created,
    updated_at := markdown.frontmatter.modified,
    entity_metadata := markdown.frontmatter.metadata,
    observations := markdown.observations.map (fun o =>
      { content := o.content,
        category := get_valid_category o.category,
        context := o.context,
        tags := match o.tags with | some ts => ts | none => [] }),
    outgoing_relations := [] }

/-- A Python value handed to `EntityParser.parse_date`
(`markdown/entity_parser.py` lines 79-98): a datetime, a string, or
anything else.  Datetimes are modelled as epoch naturals. -/
inductive PyDateValue
  | dt (d : Nat)
  | str (s : String)
  | other
deriving DecidableEq, Repr

/-- Behaviour of the external `dateparser.parse` on one string: it may
return a datetime, return `None`, or raise. -/
inductive DateParseOutcome
  | parsed (d : Nat)
  | noParse
  | raised (msg : String)
deriving DecidableEq, Repr

/-- `EntityParser.parse_date` (`markdown/entity_parser.py` lines
79-98), parameterized over the behaviour of `dateparser.parse`: a
datetime is returned unchanged; a string is parsed, with both a `None`
result and a raised exception collapsing to `None`; every other input
yields `None`. -/
def parse_date (dateparse : String → DateParseOutcome) : PyDateValue → Option Nat
  | .dt d => some d
  | .str s =>
      match dateparse s with
      | .parsed d => some d
      | .noParse => none
      | .raised _ => none
  | .other => none

/-- `post.metadata.get("title", file_path.name)` in
`EntityParser.parse_file` (`markdown/entity_parser.py` line 112): the
frontmatter title when the key is present, else the full file name
(including its extension). -/
def parse_file_title (metadata : List (String × String)) (file_name : String) : String :=
  match metadata.lookup "title" with
  | some t => t
  | none => file_name

/-- `Path.stem` for a markdown file name: the name with the `.md`
extension removed. -/
def fileStem (file_name : String) : String :=
  stripMd file_name

end Markdown

namespace Context

/-- `SearchItemType` (`schemas/search.py`): the type tag of a search
index row, one of `entity`, `observation`, `relation` (values as used in
the SQL of `services/context_service.py`). -/
inductive ItemType
  | entity
  | observation
  | relation
deriving DecidableEq, Repr

/-- A row of the `search_index` table as selected by the recursive CTE
in `ContextService.find_connected` (`services/context_service.py` lines
135-218): one row per searchable item with type-specific nullable
columns.  Dates are epoch naturals. -/
structure SIRow where
  id : Nat
  item_type : ItemType
  title : String
  permalink : String
  from_id : Option Nat
  to_id : Option Nat
  relation_type : Option String
  category : Option String
  entity_id : Option Nat
  content : String
  created_at : Nat
deriving DecidableEq, Repr

/-- SQL three-valued comparison of two nullable columns: `a = b` is
satisfied only when both are non-NULL and equal. -/
def optEq (a b : Option Nat) : Bool :=
  match a, b with
  | some x, some y => x = y
  | _, _ => false

/-- The `created_at >= :since_date` filter; absent `since` keeps every
row. -/
def sinceOk (since : Option Nat) (created_at : Nat) : Bool :=
  match since with
  | none => true
  | some d => d ≤ created_at

/-- Base case of the CTE: the seed rows, each becoming its own
`root_id`, filtered by the optional date cutoff
(`context_service.py` lines 137-154). -/
def seedRows (idx : List SIRow) (pairs : List (ItemType × Nat)) (since : Option Nat) :
    List (SIRow × Nat) :=
  (idx.filter (fun r =>
      decide ((r.item_type, r.id) ∈ pairs) && sinceOk since r.created_at)).map
    (fun r => (r, r.id))

/-- The first join of the recursive step (`context_service.py` lines
174-180): `r1` is a relation row incident to the current entity `cg`,
subject to the date cutoff. -/
def relJoin (since : Option Nat) (cgId : Nat) (r1 : SIRow) : Bool :=
  decide (r1.item_type = ItemType.relation) &&
    (optEq r1.from_id (some cgId) || optEq r1.to_id (some cgId)) &&
    sinceOk since r1.created_at

/-- The second join (`context_service.py` lines 182-194): a related row
is the relation itself, an entity endpoint of it, or an observation
owned by an endpoint.  SQL operator precedence puts the appended date
filter on the observation disjunct only. -/
def relatedJoin (since : Option Nat) (r1 related : SIRow) : Bool :=
  decide (related.id = r1.id) ||
  (decide (related.item_type = ItemType.entity) &&
    (optEq (some related.id) r1.from_id || optEq (some related.id) r1.to_id)) ||
  (decide (related.item_type = ItemType.observation) &&
    (optEq related.entity_id r1.from_id || optEq related.entity_id r1.to_id) &&
    sinceOk since related.created_at)

/-- One expansion of a CTE row: only rows with `cg.type = 'entity'`
expand; the result is every related row of every incident relation. -/
def expandRow (idx : List SIRow) (since : Option Nat) (cg : SIRow) : List SIRow :=
  if cg.item_type = ItemType.entity then
    (idx.filter (relJoin since cg.id)).flatMap (fun r1 => idx.filter (relatedJoin since r1))
  else []

/-- The CTE rows at a given depth, with their `root_id`: depth 0 is the
seed set, depth `n+1` expands every depth-`n` row, propagating the
root. -/
def cgLevel (idx : List SIRow) (pairs : List (ItemType × Nat)) (since : Option Nat) :
    Nat → List (SIRow × Nat)
  | 0 => seedRows idx pairs since
  | n + 1 =>
      (cgLevel idx pairs since n).flatMap
        (fun cg => (expandRow idx since cg.1).map (fun r => (r, cg.2)))

/-- Least `n < bound` with `f n = true`, scanning upward. -/
def scanFirst (f : Nat → Bool) : Nat → Option Nat
  | 0 => none
  | b + 1 =>
      match scanFirst f b with
      | some m => some m
      | none => if f b then some b else none

/-- One output row of `find_connected`: an item annotated with its
depth and the seed (`root_id`) it was reached from. -/
structure ContextRow where
  row : SIRow
  depth : Nat
  root_id : Nat
deriving DecidableEq, Repr

/-- Whether a `(row, root)` key occurs at a given CTE depth. -/
def atLevel (idx : List SIRow) (pairs : List (ItemType × Nat)) (since : Option Nat)
    (k : SIRow × Nat) (n : Nat) : Bool :=
  decide (k ∈ cgLevel idx pairs since n)

/-- `ContextService.find_connected` (`context_service.py` lines
104-221): empty seed sets return early; otherwise the recursive CTE
(bounded by `WHERE cg.depth < :max_depth`) is grouped by all item
columns plus `root_id`, keeping `MIN(depth)` — i.e. one output row per
distinct `(item row, root_id)` pair, annotated with the least depth at
which that pair occurs. -/
def find_connected (idx : List SIRow) (pairs : List (ItemType × Nat))
    (max_depth : Nat) (since : Option Nat) : List ContextRow :=
  if pairs.isEmpty then []
  else
    let keys := ((List.range (max_depth + 1)).flatMap
      (fun n => cgLevel idx pairs since n)).dedup
    keys.map (fun k =>
      { row := k.1,
        depth := (scanFirst (atLevel idx pairs since k) (max_depth + 1)).getD 0,
        root_id := k.2 })

/-- A search query as issued by the context service
(`ContextService.find_by_pattern` / `find_by_permalink`). -/
inductive SearchQuery
  | permalink (value : String)
  | permalink_pattern (value : String)
deriving DecidableEq, Repr

/-- The shape of a parsed `memory://` URI as used by `build_context`
(`schemas/memory.py` is not under src/; the three branches come from
`context_service.py` lines 44-53): a `related` special mode with a
target, a glob pattern, or a direct permalink path. -/
inductive MemoryUrl
  | related (target : String)
  | pattern (value : String)
  | permalink (path : String)
deriving DecidableEq, Repr

/-- `ContextService.find_related` (`context_service.py` lines 90-102):
resolve the target permalink; an empty result short-circuits to `[]`,
otherwise traverse one hop from the targets. -/
def find_related (search : SearchQuery → List SIRow) (idx : List SIRow)
    (target : String) : List ContextRow :=
  let t := search (SearchQuery.permalink target)
  if t.isEmpty then []
  else find_connected idx (t.map (fun r => (r.item_type, r.id))) 1 none

/-- The result dictionary of `build_context`
(`context_service.py` lines 66-78). -/
structure ContextResult where
  primary_entities : List SIRow
  related_entities : List ContextRow
  uri : String
  depth : Nat
  timeframe : Option Nat
  matched_entities : Nat
  total_entities : Nat
  total_relations : Nat
deriving DecidableEq, Repr

/-- `ContextService.build_context` (`context_service.py` lines 31-78):
resolve the URI to primary items (special `related` mode, glob pattern,
or direct permalink), then find connected items from the primary
`(type, id)` pairs, and assemble the result with its metadata.  Missing
data never raises: every branch returns a (possibly empty) list. -/
def build_context (search : SearchQuery → List SIRow) (idx : List SIRow)
    (uri : String) (url : MemoryUrl) (depth : Nat) (since : Option Nat) : ContextResult :=
  let primary : List SIRow :=
    match url with
    | .related target => (find_related search idx target).map (fun c => c.row)
    | .pattern p => search (SearchQuery.permalink_pattern p)
    | .permalink p => search (SearchQuery.permalink p)
  let type_id_pairs := primary.map (fun r => (r.item_type, r.id))
  let related := find_connected idx type_id_pairs depth since
  { primary_entities := primary,
    related_entities := related,
    uri := uri,
    depth := depth,
    timeframe := since,
    matched_entities := primary.length,
    total_entities := primary.length + related.length,
    total_relations :=
      (related.filter (fun r => r.row.item_type = ItemType.relation)).length }

end Context

namespace Cli

/-- Fields of a `SyncReport` as consumed by the CLI display helpers
(`cli/commands/sync.py` lines 147-202; the `sync/utils.py` module that
declares it is not under src/). -/
structure SyncReport where
  new : List String
  modified : List String
  moves : List (String × String)
  deleted : List String
  checksums : List (String × String)
deriving DecidableEq, Repr

/-- `SyncReport.total_changes` as used by the display helpers. -/
def SyncReport.total_changes (r : SyncReport) : Nat :=
  r.new.length + r.modified.length + r.moves.length + r.deleted.length

/-- Outcome of running the sync operation inside the command: either it
completes with a report, or some exception escapes (bad path, validation
failure, inability to open the store, ...). -/
inductive SyncRunOutcome
  | completed (report : SyncReport)
  | raised (msg : String)
deriving DecidableEq, Repr

/-- Exit code of the `sync` CLI command (`cli/commands/sync.py` lines
229-254): the body runs under a single `try`; any exception other than
`typer.Exit` is logged and re-raised as `typer.Exit(1)`, and a completed
run falls through to exit code 0.  No other exit code is produced. -/
def sync_exit_code : SyncRunOutcome → Nat
  | .completed _ => 0
  | .raised _ => 1

/-- Exit code of the `status` CLI command (`cli/commands/status.py`
lines 138-148): identical single catch-all producing `typer.Exit(1)`. -/
def status_exit_code : SyncRunOutcome → Nat
  | .completed _ => 0
  | .raised _ => 1

end Cli

namespace Examples

/-- A concrete store: two entities, one observation each, one relation
in each direction between them. -/
def exDb : Store.DB :=
  { entities :=
      [{ id := "a", name := "A", entity_type := "note", description := "",
         refs := "", created_at := 0, updated_at := 0 },
       { id := "b", name := "B", entity_type := "note", description := "",
         refs := "", created_at := 0, updated_at := 0 }],
    observations :=
      [{ id := "o1", entity_id := "a", content := "alpha", created_at := 0, context := none },
       { id := "o2", entity_id := "b", content := "beta", created_at := 0, context := none }],
    relations :=
      [{ id := "r1", from_id := "a", to_id := "b", relation_type := "implements",
         created_at := 0, context := none },
       { id := "r2", from_id := "b", to_id := "a", relation_type := "depends_on",
         created_at := 0, context := none }] }

/-- The observation of entity `b` in `exDb`. -/
def exObs2 : Store.ObservationRow :=
  { id := "o2", entity_id := "b", content := "beta", created_at := 0, context := none }

/-- An attempted INSERT of a relation whose target is unresolved
(`to_id` left NULL). -/
def exUnresolvedInsert : Store.RelationInsert :=
  { id := some "r9", from_id := some "a", to_id := none,
    relation_type := some "implements", created_at := 0, context := none }

/-- A concrete knowledge entity with one stored observation and one
resolved outgoing relation. -/
def exEntity : Knowledge.Entity :=
  { title := "Auth Service", entity_type := "design", permalink := "design/auth-service",
    file_path := "design/auth-service.md", content_type := "text/markdown",
    created_at := 0, updated_at := 0, entity_metadata := [],
    observations := [{ category := "tech", content := "Tokens are opaque",
                       tags := [], context := none }],
    outgoing_relations := [{ relation_type := "implements",
                             to_entity_title := some "OAuth2 Spec",
                             to_name := "OAuth2 Spec", context := none }] }

/-- A concrete body: prose plus one inline observation that is absent
from `exEntity`'s store rows. -/
def exContent : List Markdown.BodyLine :=
  [Markdown.BodyLine.prose "Free-form prose.",
   Markdown.BodyLine.obs { category := some "design", content := "Old note",
                           tags := none, context := none }]

/-- The markdown form of `exEntity`'s stored observation. -/
def exMdObs : Markdown.Observation :=
  { category := some "tech", content := "Tokens are opaque", tags := none, context := none }

/-- A concrete `dateparser.parse` behaviour: one parseable string,
everything else unparseable. -/
def exDateParse : String → Markdown.DateParseOutcome := fun s =>
  if s = "2024-01-15" then Markdown.DateParseOutcome.parsed 1705276800
  else Markdown.DateParseOutcome.noParse

/-- Search-index rows: three entities, a relation from entity 1 to
entity 3 and a relation from entity 2 to entity 3. -/
def sie1 : Context.SIRow :=
  { id := 1, item_type := Context.ItemType.entity, title := "", permalink := "",
    from_id := none, to_id := none, relation_type := none, category := none,
    entity_id := none, content := "", created_at := 0 }

def sie2 : Context.SIRow :=
  { sie1 with id := 2 }

def sie3 : Context.SIRow :=
  { sie1 with id := 3 }

def sir10 : Context.SIRow :=
  { id := 10, item_type := Context.ItemType.relation, title := "", permalink := "",
    from_id := some 1, to_id := some 3, relation_type := some "r", category := none,
    entity_id := none, content := "", created_at := 0 }

def sir11 : Context.SIRow :=
  { sir10 with id := 11, from_id := some 2 }

/-- The index: two seed entities both one hop away from entity 3. -/
def exIdx : List Context.SIRow := [sie1, sie2, sie3, sir10, sir11]

/-- Seed pairs: both entity 1 and entity 2. -/
def exPairs : List (Context.ItemType × Nat) :=
  [(Context.ItemType.entity, 1), (Context.ItemType.entity, 2)]

end Examples

/-- C1: deleting an entity removes every observation it owns and every
relation incident to it in both directions; no row referencing the
deleted entity survives, and rows not referencing it are kept. -/
theorem delete_entity_cascade (db : Store.DB) (eid : String) :
    (∀ o ∈ (Store.delete_entity db eid).observations, o.entity_id ≠ eid) ∧
    (∀ r ∈ (Store.delete_entity db eid).relations, r.from_id ≠ eid ∧ r.to_id ≠ eid) ∧
    (∀ e ∈ (Store.delete_entity db eid).entities, e.id ≠ eid) ∧
    (∀ o ∈ db.observations, o.entity_id ≠ eid →
      o ∈ (Store.delete_entity db eid).observations) ∧
    (∀ r ∈ db.relations, r.from_id ≠ eid → r.to_id ≠ eid →
      r ∈ (Store.delete_entity db eid).relations) := by
  refine ⟨?_, ?_, ?_, ?_, ?_⟩ <;>
    simp only [Store.delete_entity, List.mem_filter, decide_eq_true_eq] <;>
    intros <;> simp_all

/-- Witness for C1 at the concrete store `exDb`: the observation owned
by entity `b` survives deleting entity `a`. -/
theorem delete_entity_cascade_witness :
    Examples.exObs2 ∈ (Store.delete_entity Examples.exDb "a").observations :=
  (delete_entity_cascade Examples.exDb "a").2.2.2.1 Examples.exObs2 (by decide) (by decide)

/-- Counterexample to C2 as stated: in `models.py` the `to_id` column is
`Mapped[str]`, hence NOT NULL, and with `PRAGMA foreign_keys=ON` a
relation with an unresolved target (`to_id` NULL) cannot be stored. -/
theorem relation_to_id_not_nullable :
    Store.relation_to_id_column.nullable = false ∧
    Store.insert_relation Examples.exDb Examples.exUnresolvedInsert = none :=
  ⟨rfl, rfl⟩

/-- C2 (amended): every persisted relation's `from_id` AND `to_id`
reference existing entities; `to_id` is not nullable, so an INSERT
leaving it NULL fails, a successful INSERT preserves referential
integrity, and cascade deletion preserves it too. -/
theorem relation_referential_integrity (db db' : Store.DB) (v : Store.RelationInsert)
    (eid : String) :
    (v.to_id = none → Store.insert_relation db v = none) ∧
    (Store.insert_relation db v = some db' →
      Store.relationsResolved db → Store.relationsResolved db') ∧
    (Store.relationsResolved db → Store.relationsResolved (Store.delete_entity db eid)) := by
  obtain ⟨vid, vfrom, vto, vtype, vca, vcx⟩ := v
  refine ⟨?_, ?_, ?_⟩
  · rintro rfl
    cases vid <;> cases vfrom <;> cases vtype <;> rfl
  · intro hins hres
    cases vid <;> cases vfrom <;> cases vto <;> cases vtype <;>
      simp only [Store.insert_relation] at hins <;>
      try exact Option.noConfusion hins
    split at hins
    case isTrue hc =>
      obtain ⟨hf, ht, _⟩ := hc
      obtain ⟨ef, hef, hefid⟩ := by
        simpa only [List.any_eq_true, decide_eq_true_eq] using hf
      obtain ⟨et, het, hetid⟩ := by
        simpa only [List.any_eq_true, decide_eq_true_eq] using ht
      obtain rfl := Option.some_injective _ hins
      intro r hr
      simp only [List.mem_append, List.mem_singleton] at hr
      rcases hr with hr | rfl
      · exact hres r hr
      · exact ⟨⟨ef, hef, hefid⟩, ⟨et, het, hetid⟩⟩
    case isFalse => exact Option.noConfusion hins
  · intro hres r hr
    obtain ⟨hr0, hcond⟩ := List.mem_filter.mp hr
    obtain ⟨hfrom, hto⟩ := of_decide_eq_true hcond
    obtain ⟨⟨ef, hef, hefid⟩, ⟨et, het, hetid⟩⟩ := hres r hr0
    refine ⟨⟨ef, List.mem_filter.mpr ⟨hef, ?_⟩, hefid⟩,
            ⟨et, List.mem_filter.mpr ⟨het, ?_⟩, hetid⟩⟩
    · simpa [hefid] using hfrom
    · simpa [hetid] using hto

/-- Witness for C2 (amended) at the concrete store `exDb`: the
unresolved INSERT fails and cascade deletion of `a` leaves a store whose
relations are all resolved. -/
theorem relation_referential_integrity_witness :
    Store.insert_relation Examples.exDb Examples.exUnresolvedInsert = none ∧
    Store.relationsResolved (Store.delete_entity Examples.exDb "a") :=
  ⟨(relation_referential_integrity Examples.exDb Examples.exDb
      Examples.exUnresolvedInsert "a").1 rfl,
   (relation_referential_integrity Examples.exDb Examples.exDb
      Examples.exUnresolvedInsert "a").2.2 (by decide)⟩

/-- Counterexample to C6 as stated: for a file `note.md` whose
frontmatter lacks a `title` key, `parse_file` defaults the title to
`file_path.name` — the full file name `note.md`, not the stem `note`. -/
theorem title_default_not_stem :
    Markdown.parse_file_title [] "note.md" = "note.md" ∧
    Markdown.parse_file_title [] "note.md" ≠ Markdown.fileStem "note.md" :=
  ⟨rfl, by decide⟩

/-- C6 (amended): a missing `title` frontmatter key defaults the parsed
title to the file name, extension included. -/
theorem title_defaults_to_file_name (metadata : List (String × String)) (file_name : String)
    (h : metadata.lookup "title" = none) :
    Markdown.parse_file_title metadata file_name = file_name := by
  unfold Markdown.parse_file_title
  rw [h]

/-- Witness for C6 (amended): concrete frontmatter without a title. -/
theorem title_defaults_to_file_name_witness :
    Markdown.parse_file_title [("type", "design")] "note.md" = "note.md" :=
  title_defaults_to_file_name [("type", "design")] "note.md" rfl

/-- C7: an enumerated observation category is kept unchanged; a missing
category or one outside the enumeration becomes `note`. -/
theorem category_validation (category : Option String) :
    (∀ c, category = some c → c ∈ Markdown.observationCategories →
      Markdown.get_valid_category category = c) ∧
    ((category = none ∨ ∃ c, category = some c ∧ c ∉ Markdown.observationCategories) →
      Markdown.get_valid_category category = "note") := by
  constructor
  · rintro c rfl hmem
    have hne : c ≠ "" := by rintro rfl; revert hmem; decide
    simp [Markdown.get_valid_category, hne, hmem]
  · rintro (rfl | ⟨c, rfl, hnot⟩)
    · rfl
    · by_cases he : c = ""
      · simp [Markdown.get_valid_category, he]
      · simp [Markdown.get_valid_category, he, hnot]

/-- Witness for C7: `tech` is kept, an unknown category maps to
`note`. -/
theorem category_validation_witness :
    Markdown.get_valid_category (some "tech") = "tech" ∧
    Markdown.get_valid_category (some "bogus") = "note" :=
  ⟨(category_validation (some "tech")).1 "tech" rfl (by decide),
   (category_validation (some "bogus")).2 (Or.inr ⟨"bogus", rfl, by decide⟩)⟩

/-- C9: `parse_date` is total — datetimes pass through, strings return
the parsed datetime exactly when the flexible parser succeeds, and
unparseable strings, parser exceptions and non-string non-datetime
values all yield `None`. -/
theorem parse_date_total (dp : String → Markdown.DateParseOutcome) :
    (∀ d, Markdown.parse_date dp (Markdown.PyDateValue.dt d) = some d) ∧
    (∀ s d, dp s = Markdown.DateParseOutcome.parsed d →
      Markdown.parse_date dp (Markdown.PyDateValue.str s) = some d) ∧
    (∀ s, dp s = Markdown.DateParseOutcome.noParse →
      Markdown.parse_date dp (Markdown.PyDateValue.str s) = none) ∧
    (∀ s m, dp s = Markdown.DateParseOutcome.raised m →
      Markdown.parse_date dp (Markdown.PyDateValue.str s) = none) ∧
    Markdown.parse_date dp Markdown.PyDateValue.other = none := by
  refine ⟨fun _ => rfl, ?_, ?_, ?_, rfl⟩ <;> intros <;> simp [Markdown.parse_date, *]

/-- Witness for C9 at a concrete `dateparser` behaviour. -/
theorem parse_date_total_witness :
    Markdown.parse_date Examples.exDateParse (Markdown.PyDateValue.str "2024-01-15")
        = some 1705276800 ∧
    Markdown.parse_date Examples.exDateParse (Markdown.PyDateValue.str "gibberish") = none :=
  ⟨(parse_date_total Examples.exDateParse).2.1 "2024-01-15" 1705276800 (by decide),
   (parse_date_total Examples.exDateParse).2.2.1 "gibberish" (by decide)⟩

/-- C10: the entity model built from parsed markdown carries the
document's observations (content and context preserved) but its outgoing
relations are always empty, even when the markdown contains relation
lines. -/
theorem from_markdown_excludes_relations (file_path : String)
    (markdown : Markdown.EntityMarkdown) :
    (Markdown.entity_model_from_markdown file_path markdown).outgoing_relations = [] ∧
    (Markdown.entity_model_from_markdown file_path markdown).observations.map
        (fun o => (o.content, o.context))
      = markdown.observations.map (fun o => (o.content, o.context)) := by
  constructor
  · rfl
  · simp [Markdown.entity_model_from_markdown]

/-- Counterexample to C8 as stated: an unrecoverable condition (the
store cannot be opened) exits with code 1, not 3 — the command's single
catch-all turns every exception into `typer.Exit(1)`. -/
theorem cli_exit_code_counterexample :
    Cli.sync_exit_code (Cli.SyncRunOutcome.raised "unable to open store") = 1 ∧
    (1 : Nat) ≠ 3 :=
  ⟨rfl, by decide⟩

/-- C8 (amended): the command-line sync driver exits 0 when the run
completes (regardless of per-file outcomes) and 1 on any error; no exit
code other than 0 and 1 is produced, and `status` behaves the same
way. -/
theorem cli_exit_codes (r : Cli.SyncRunOutcome) :
    (Cli.sync_exit_code r = 0 ∨ Cli.sync_exit_code r = 1) ∧
    (∀ rep, Cli.sync_exit_code (Cli.SyncRunOutcome.completed rep) = 0) ∧
    (∀ m, Cli.sync_exit_code (Cli.SyncRunOutcome.raised m) = 1) ∧
    (∀ rep, Cli.status_exit_code (Cli.SyncRunOutcome.completed rep) = 0) ∧
    (∀ m, Cli.status_exit_code (Cli.SyncRunOutcome.raised m) = 1) := by
  refine ⟨?_, fun _ => rfl, fun _ => rfl, fun _ => rfl, fun _ => rfl⟩
  cases r
  · exact Or.inl rfl
  · exact Or.inr rfl

theorem bodyObservations_append (a b : List Markdown.BodyLine) :
    Markdown.bodyObservations (a ++ b)
      = Markdown.bodyObservations a ++ Markdown.bodyObservations b := by
  simp [Markdown.bodyObservations, List.filterMap_append]

theorem bodyRelations_append (a b : List Markdown.BodyLine) :
    Markdown.bodyRelations (a ++ b)
      = Markdown.bodyRelations a ++ Markdown.bodyRelations b := by
  simp [Markdown.bodyRelations, List.filterMap_append]

theorem bodyObservations_map_obs (l : List Markdown.Observation) :
    Markdown.bodyObservations (l.map Markdown.BodyLine.obs) = l := by
  induction l with
  | nil => rfl
  | cons x xs ih => simp [Markdown.bodyObservations, List.filterMap_cons] at ih ⊢; exact ih

theorem bodyObservations_map_rel (l : List Markdown.Relation) :
    Markdown.bodyObservations (l.map Markdown.BodyLine.rel) = [] := by
  induction l with
  | nil => rfl
  | cons x xs ih => simp [Markdown.bodyObservations, List.filterMap_cons, ih]

theorem bodyRelations_map_rel (l : List Markdown.Relation) :
    Markdown.bodyRelations (l.map Markdown.BodyLine.rel) = l := by
  induction l with
  | nil => rfl
  | cons x xs ih => simp [Markdown.bodyRelations, List.filterMap_cons] at ih ⊢; exact ih

theorem bodyRelations_map_obs (l : List Markdown.Observation) :
    Markdown.bodyRelations (l.map Markdown.BodyLine.obs) = [] := by
  induction l with
  | nil => rfl
  | cons x xs ih => simp [Markdown.bodyRelations, List.filterMap_cons, ih]

theorem bodyObservations_map_obs_comp {α : Type} (f : α → Markdown.Observation)
    (l : List α) :
    Markdown.bodyObservations (l.map (Markdown.BodyLine.obs ∘ f)) = l.map f := by
  induction l with
  | nil => rfl
  | cons x xs ih => simp [Markdown.bodyObservations, List.filterMap_cons] at ih ⊢; exact ih

theorem bodyObservations_map_rel_comp {α : Type} (f : α → Markdown.Relation)
    (l : List α) :
    Markdown.bodyObservations (l.map (Markdown.BodyLine.rel ∘ f)) = [] := by
  induction l with
  | nil => rfl
  | cons x xs ih => simp [Markdown.bodyObservations, List.filterMap_cons, ih]

theorem bodyRelations_map_rel_comp {α : Type} (f : α → Markdown.Relation)
    (l : List α) :
    Markdown.bodyRelations (l.map (Markdown.BodyLine.rel ∘ f)) = l.map f := by
  induction l with
  | nil => rfl
  | cons x xs ih => simp [Markdown.bodyRelations, List.filterMap_cons] at ih ⊢; exact ih

theorem bodyRelations_map_obs_comp {α : Type} (f : α → Markdown.Observation)
    (l : List α) :
    Markdown.bodyRelations (l.map (Markdown.BodyLine.obs ∘ f)) = [] := by
  induction l with
  | nil => rfl
  | cons x xs ih => simp [Markdown.bodyRelations, List.filterMap_cons, ih]

theorem mem_bodyObservations_removeObservation (o x : Markdown.Observation)
    (c : List Markdown.BodyLine) :
    x ∈ Markdown.bodyObservations (Markdown.removeObservation o c)
      ↔ x ∈ Markdown.bodyObservations c ∧ x ≠ o := by
  simp only [Markdown.bodyObservations, Markdown.removeObservation, List.filterMap_map,
             List.mem_filterMap, Function.comp]
  constructor
  · rintro ⟨l, hl, hx⟩
    by_cases h : l = Markdown.BodyLine.obs o
    · rw [if_pos h] at hx
      exact absurd hx (by simp)
    · rw [if_neg h] at hx
      cases l with
      | prose t => exact absurd hx (by simp)
      | rel r => exact absurd hx (by simp)
      | obs o' =>
        obtain rfl : o' = x := by simpa using hx
        exact ⟨⟨_, hl, rfl⟩, fun hxo => h (by rw [hxo])⟩
  · rintro ⟨⟨l, hl, hx⟩, hne⟩
    refine ⟨l, hl, ?_⟩
    cases l with
    | prose t => exact absurd hx (by simp)
    | rel r => exact absurd hx (by simp)
    | obs o' =>
      obtain rfl : o' = x := by simpa using hx
      rw [if_neg (by simpa using hne)]

theorem mem_bodyRelations_removeRelation (r x : Markdown.Relation)
    (c : List Markdown.BodyLine) :
    x ∈ Markdown.bodyRelations (Markdown.removeRelation r c)
      ↔ x ∈ Markdown.bodyRelations c ∧ x ≠ r := by
  simp only [Markdown.bodyRelations, Markdown.removeRelation, List.filterMap_map,
             List.mem_filterMap, Function.comp]
  constructor
  · rintro ⟨l, hl, hx⟩
    by_cases h : l = Markdown.BodyLine.rel r
    · rw [if_pos h] at hx
      exact absurd hx (by simp)
    · rw [if_neg h] at hx
      cases l with
      | prose t => exact absurd hx (by simp)
      | obs o => exact absurd hx (by simp)
      | rel r' =>
        obtain rfl : r' = x := by simpa using hx
        exact ⟨⟨_, hl, rfl⟩, fun hxr => h (by rw [hxr])⟩
  · rintro ⟨⟨l, hl, hx⟩, hne⟩
    refine ⟨l, hl, ?_⟩
    cases l with
    | prose t => exact absurd hx (by simp)
    | obs o => exact absurd hx (by simp)
    | rel r' =>
      obtain rfl : r' = x := by simpa using hx
      rw [if_neg (by simpa using hne)]

theorem bodyObservations_removeRelation (r : Markdown.Relation)
    (c : List Markdown.BodyLine) :
    Markdown.bodyObservations (Markdown.removeRelation r c)
      = Markdown.bodyObservations c := by
  induction c with
  | nil => rfl
  | cons l ls ih =>
    cases l with
    | prose t =>
        simpa [Markdown.removeRelation, Markdown.bodyObservations,
               List.filterMap_cons] using ih
    | obs o =>
        simp only [Markdown.removeRelation, List.map_cons] at *
        rw [if_neg (by simp)]
        simpa [Markdown.bodyObservations, List.filterMap_cons] using ih
    | rel r' =>
        simp only [Markdown.removeRelation, List.map_cons] at *
        by_cases h : r' = r
        · subst h
          rw [if_pos rfl]
          simpa [Markdown.bodyObservations, List.filterMap_cons] using ih
        · rw [if_neg (by simp [h])]
          simpa [Markdown.bodyObservations, List.filterMap_cons] using ih

theorem bodyRelations_removeObservation (o : Markdown.Observation)
    (c : List Markdown.BodyLine) :
    Markdown.bodyRelations (Markdown.removeObservation o c)
      = Markdown.bodyRelations c := by
  induction c with
  | nil => rfl
  | cons l ls ih =>
    cases l with
    | prose t =>
        simpa [Markdown.removeObservation, Markdown.bodyRelations,
               List.filterMap_cons] using ih
    | rel r =>
        simp only [Markdown.removeObservation, List.map_cons] at *
        rw [if_neg (by simp)]
        simpa [Markdown.bodyRelations, List.filterMap_cons] using ih
    | obs o' =>
        simp only [Markdown.removeObservation, List.map_cons] at *
        by_cases h : o' = o
        · subst h
          rw [if_pos rfl]
          simpa [Markdown.bodyRelations, List.filterMap_cons] using ih
        · rw [if_neg (by simp [h])]
          simpa [Markdown.bodyRelations, List.filterMap_cons] using ih

theorem mem_bodyObservations_scrubObservations (eo L : List Markdown.Observation)
    (c : List Markdown.BodyLine) (x : Markdown.Observation) :
    x ∈ Markdown.bodyObservations (Markdown.scrubObservations eo L c)
      ↔ x ∈ Markdown.bodyObservations c ∧ (x ∈ L → x ∈ eo) := by
  induction L generalizing c with
  | nil => simp [Markdown.scrubObservations]
  | cons o L ih =>
    simp only [Markdown.scrubObservations, List.foldl_cons] at *
    rw [ih]
    by_cases h : o ∈ eo
    · rw [if_neg (by simp [h])]
      simp only [List.mem_cons]
      constructor
      · rintro ⟨h1, h2⟩
        exact ⟨h1, by rintro (rfl | hx); exacts [h, h2 hx]⟩
      · rintro ⟨h1, h2⟩
        exact ⟨h1, fun hx => h2 (Or.inr hx)⟩
    · rw [if_pos h]
      simp only [mem_bodyObservations_removeObservation, List.mem_cons]
      constructor
      · rintro ⟨⟨h1, hne⟩, h2⟩
        exact ⟨h1, by rintro (rfl | hx); exacts [absurd rfl hne, h2 hx]⟩
      · rintro ⟨h1, h2⟩
        have hne : x ≠ o := by rintro rfl; exact h (h2 (Or.inl rfl))
        exact ⟨⟨h1, hne⟩, fun hx => h2 (Or.inr hx)⟩

theorem mem_bodyRelations_scrubRelations (er L : List Markdown.Relation)
    (c : List Markdown.BodyLine) (x : Markdown.Relation) :
    x ∈ Markdown.bodyRelations (Markdown.scrubRelations er L c)
      ↔ x ∈ Markdown.bodyRelations c ∧ (x ∈ L → x ∈ er) := by
  induction L generalizing c with
  | nil => simp [Markdown.scrubRelations]
  | cons r L ih =>
    simp only [Markdown.scrubRelations, List.foldl_cons] at *
    rw [ih]
    by_cases h : r ∈ er
    · rw [if_neg (by simp [h])]
      simp only [List.mem_cons]
      constructor
      · rintro ⟨h1, h2⟩
        exact ⟨h1, by rintro (rfl | hx); exacts [h, h2 hx]⟩
      · rintro ⟨h1, h2⟩
        exact ⟨h1, fun hx => h2 (Or.inr hx)⟩
    · rw [if_pos h]
      simp only [mem_bodyRelations_removeRelation, List.mem_cons]
      constructor
      · rintro ⟨⟨h1, hne⟩, h2⟩
        exact ⟨h1, by rintro (rfl | hx); exacts [absurd rfl hne, h2 hx]⟩
      · rintro ⟨h1, h2⟩
        have hne : x ≠ r := by rintro rfl; exact h (h2 (Or.inl rfl))
        exact ⟨⟨h1, hne⟩, fun hx => h2 (Or.inr hx)⟩

theorem bodyObservations_scrubRelations (er L : List Markdown.Relation)
    (c : List Markdown.BodyLine) :
    Markdown.bodyObservations (Markdown.scrubRelations er L c)
      = Markdown.bodyObservations c := by
  induction L generalizing c with
  | nil => rfl
  | cons r L ih =>
    simp only [Markdown.scrubRelations, List.foldl_cons] at *
    by_cases h : r ∈ er
    · rw [if_neg (by simp [h]), ih]
    · rw [if_pos h, ih, bodyObservations_removeRelation]

theorem bodyRelations_scrubObservations (eo L : List Markdown.Observation)
    (c : List Markdown.BodyLine) :
    Markdown.bodyRelations (Markdown.scrubObservations eo L c)
      = Markdown.bodyRelations c := by
  induction L generalizing c with
  | nil => rfl
  | cons o L ih =>
    simp only [Markdown.scrubObservations, List.foldl_cons] at *
    by_cases h : o ∈ eo
    · rw [if_neg (by simp [h]), ih]
    · rw [if_pos h, ih, bodyRelations_removeObservation]

/-- C3: parsing the rendered markdown of an entity reproduces exactly
the entity's stored observations and relations (in their markdown
form): the render appends the store items not already inline and erases
the inline items absent from the store, so the parse of the result
recovers precisely the store set. -/
theorem parse_render_round_trip (entity : Knowledge.Entity)
    (content : Option (List Markdown.BodyLine)) :
    (∀ o, o ∈ (Markdown.parse (Markdown.renderedBody
        (Markdown.entity_model_to_markdown entity content))).observations
      ↔ o ∈ entity.observations.map Markdown.obsToMarkdown) ∧
    (∀ r, r ∈ (Markdown.parse (Markdown.renderedBody
        (Markdown.entity_model_to_markdown entity content))).relations
      ↔ r ∈ entity.outgoing_relations.map Markdown.relToMarkdown) := by
  cases content with
  | none =>
      constructor <;> intro x <;>
        simp [Markdown.entity_model_to_markdown, Markdown.renderedBody, Markdown.parse,
              bodyObservations_append, bodyObservations_map_obs, bodyObservations_map_rel,
              bodyRelations_append, bodyRelations_map_obs, bodyRelations_map_rel,
              bodyObservations_map_obs_comp, bodyObservations_map_rel_comp,
              bodyRelations_map_rel_comp, bodyRelations_map_obs_comp]
  | some c =>
      constructor <;> intro x <;>
        simp only [Markdown.entity_model_to_markdown, Markdown.renderedBody, Markdown.parse,
              bodyObservations_append, bodyObservations_map_obs, bodyObservations_map_rel,
              bodyRelations_append, bodyRelations_map_obs, bodyRelations_map_rel,
              bodyObservations_scrubRelations, bodyRelations_scrubObservations,
              mem_bodyObservations_scrubObservations, mem_bodyRelations_scrubRelations,
              List.mem_append, List.mem_filter, List.not_mem_nil, or_false,
              decide_eq_true_eq] <;>
        constructor
      · rintro (⟨hc, himp⟩ | ⟨hin, hnotc⟩)
        · exact himp hc
        · exact hin
      · intro hx
        by_cases hc : x ∈ Markdown.bodyObservations c
        · exact Or.inl ⟨hc, fun _ => hx⟩
        · exact Or.inr ⟨hx, hc⟩
      · rintro (⟨hc, himp⟩ | ⟨hin, hnotc⟩)
        · exact himp hc
        · exact hin
      · intro hx
        by_cases hc : x ∈ Markdown.bodyRelations c
        · exact Or.inl ⟨hc, fun _ => hx⟩
        · exact Or.inr ⟨hx, hc⟩

/-- Witness for C3 at a concrete entity and body: the stored
observation of `exEntity` is recovered by parsing the rendered
markdown of `exContent`. -/
theorem parse_render_round_trip_witness :
    Examples.exMdObs ∈ (Markdown.parse (Markdown.renderedBody
        (Markdown.entity_model_to_markdown Examples.exEntity
          (some Examples.exContent)))).observations :=
  ((parse_render_round_trip Examples.exEntity (some Examples.exContent)).1
    Examples.exMdObs).mpr (by decide)

theorem find_connected_nil_pairs (idx : List Context.SIRow) (max_depth : Nat)
    (since : Option Nat) :
    Context.find_connected idx [] max_depth since = [] := by
  simp [Context.find_connected]

theorem scanFirst_none (f : Nat → Bool) :
    ∀ b, Context.scanFirst f b = none → ∀ k < b, f k = false := by
  intro b
  induction b with
  | zero => intro _ k hk; exact absurd hk (Nat.not_lt_zero k)
  | succ b ih =>
    intro h k hk
    unfold Context.scanFirst at h
    cases hs : Context.scanFirst f b with
    | some m => rw [hs] at h; exact Option.noConfusion h
    | none =>
      rw [hs] at h
      by_cases hf : f b = true
      · rw [if_pos hf] at h; exact Option.noConfusion h
      · rcases Nat.lt_succ_iff_lt_or_eq.mp hk with hk' | rfl
        · exact ih hs k hk'
        · exact Bool.eq_false_iff.mpr hf

theorem scanFirst_spec (f : Nat → Bool) :
    ∀ b m, Context.scanFirst f b = some m → f m = true ∧ m < b ∧ ∀ k < m, f k = false := by
  intro b
  induction b with
  | zero => intro m h; exact Option.noConfusion h
  | succ b ih =>
    intro m h
    unfold Context.scanFirst at h
    cases hs : Context.scanFirst f b with
    | some m' =>
      rw [hs] at h
      obtain rfl := Option.some.inj h
      obtain ⟨h1, h2, h3⟩ := ih _ hs
      exact ⟨h1, Nat.lt_succ_of_lt h2, h3⟩
    | none =>
      rw [hs] at h
      by_cases hf : f b = true
      · rw [if_pos hf] at h
        obtain rfl := Option.some.inj h
        exact ⟨hf, Nat.lt_succ_self _, scanFirst_none f b hs⟩
      · rw [if_neg hf] at h
        exact Option.noConfusion h

theorem scanFirst_isSome (f : Nat → Bool) :
    ∀ b n, n < b → f n = true → (Context.scanFirst f b).isSome = true := by
  intro b
  induction b with
  | zero => intro n hn _; exact absurd hn (Nat.not_lt_zero n)
  | succ b ih =>
    intro n hn hf
    unfold Context.scanFirst
    cases hs : Context.scanFirst f b with
    | some m => rfl
    | none =>
      rcases Nat.lt_succ_iff_lt_or_eq.mp hn with h' | rfl
      · have hcontra := ih n h' hf
        rw [hs] at hcontra
        simp at hcontra
      · rw [if_pos hf]; rfl

theorem cgLevel_subset_idx (idx : List Context.SIRow) (pairs : List (Context.ItemType × Nat))
    (since : Option Nat) :
    ∀ n, ∀ k ∈ Context.cgLevel idx pairs since n, k.1 ∈ idx := by
  intro n
  induction n with
  | zero =>
    intro k hk
    unfold Context.cgLevel Context.seedRows at hk
    simp only [List.mem_map, List.mem_filter] at hk
    obtain ⟨r, ⟨hr, _⟩, rfl⟩ := hk
    exact hr
  | succ n ih =>
    intro k hk
    unfold Context.cgLevel at hk
    simp only [List.mem_flatMap, List.mem_map] at hk
    obtain ⟨cg, _, r, hr, rfl⟩ := hk
    unfold Context.expandRow at hr
    split at hr
    · simp only [List.mem_flatMap] at hr
      obtain ⟨r1, _, hrr⟩ := hr
      exact (List.mem_filter.mp hrr).1
    · exact absurd hr (List.not_mem_nil _)

/-- C4 (amended): the traversal output is deduplicated by
`(type, id, root seed)` — each item appears at most once per seed root
(not once globally); every returned row is annotated with the minimal
CTE depth (hop count) at which that item is reached from its root, and
no row lies deeper than the depth bound. -/
theorem find_connected_dedup_min_depth (idx : List Context.SIRow)
    (pairs : List (Context.ItemType × Nat)) (max_depth : Nat) (since : Option Nat)
    (hids : (idx.map (fun r => (r.item_type, r.id))).Nodup) :
    (∀ c1 ∈ Context.find_connected idx pairs max_depth since,
      ∀ c2 ∈ Context.find_connected idx pairs max_depth since,
        c1.row.item_type = c2.row.item_type → c1.row.id = c2.row.id →
        c1.root_id = c2.root_id → c1 = c2) ∧
    (∀ c ∈ Context.find_connected idx pairs max_depth since,
      c.depth ≤ max_depth ∧
      (c.row, c.root_id) ∈ Context.cgLevel idx pairs since c.depth ∧
      ∀ d < c.depth, (c.row, c.root_id) ∉ Context.cgLevel idx pairs since d) := by
  by_cases hp : pairs.isEmpty
  · constructor
    · intro c1 hc1
      rw [Context.find_connected, if_pos hp] at hc1
      exact absurd hc1 (List.not_mem_nil _)
    · intro c hc
      rw [Context.find_connected, if_pos hp] at hc
      exact absurd hc (List.not_mem_nil _)
  · have hmem : ∀ c ∈ Context.find_connected idx pairs max_depth since,
        ∃ k ∈ ((List.range (max_depth + 1)).flatMap
            (fun n => Context.cgLevel idx pairs since n)).dedup,
          c = { row := k.1,
                depth := (Context.scanFirst (Context.atLevel idx pairs since k)
                  (max_depth + 1)).getD 0,
                root_id := k.2 } := by
      intro c hc
      rw [Context.find_connected, if_neg hp] at hc
      simp only [List.mem_map] at hc
      obtain ⟨k, hk, rfl⟩ := hc
      exact ⟨k, hk, rfl⟩
    constructor
    · intro c1 hc1 c2 hc2 htype hid hroot
      obtain ⟨k1, hk1, rfl⟩ := hmem c1 hc1
      obtain ⟨k2, hk2, rfl⟩ := hmem c2 hc2
      have hk1idx : k1.1 ∈ idx := by
        obtain ⟨n, _, hn⟩ := by
          simpa only [List.mem_dedup, List.mem_flatMap] using hk1
        exact cgLevel_subset_idx idx pairs since n k1 hn
      have hk2idx : k2.1 ∈ idx := by
        obtain ⟨n, _, hn⟩ := by
          simpa only [List.mem_dedup, List.mem_flatMap] using hk2
        exact cgLevel_subset_idx idx pairs since n k2 hn
      have hrow : k1.1 = k2.1 :=
        List.inj_on_of_nodup_map hids hk1idx hk2idx (by
          simp only at htype hid
          exact Prod.ext htype hid)
      have hkey : k1 = k2 := Prod.ext hrow (by simpa using hroot)
      rw [hkey]
    · intro c hc
      obtain ⟨k, hk, rfl⟩ := hmem c hc
      obtain ⟨n, hnrange, hn⟩ := by
        simpa only [List.mem_dedup, List.mem_flatMap] using hk
      have hnlt : n < max_depth + 1 := List.mem_range.mp hnrange
      have hfn : Context.atLevel idx pairs since k n = true := by
        simp only [Context.atLevel, decide_eq_true_eq]
        exact hn
      have hsome := scanFirst_isSome (Context.atLevel idx pairs since k)
        (max_depth + 1) n hnlt hfn
      obtain ⟨m, hm⟩ := Option.isSome_iff_exists.mp hsome
      obtain ⟨hfm, hmlt, hmin⟩ := scanFirst_spec _ _ _ hm
      simp only [hm, Option.getD_some]
      refine ⟨Nat.lt_succ_iff.mp hmlt, ?_, ?_⟩
      · simpa only [Context.atLevel, decide_eq_true_eq] using hfm
      · intro d hd hdmem
        have hfalse := hmin d hd
        simp only [Context.atLevel] at hfalse
        exact absurd hdmem (of_decide_eq_false hfalse)

/-- Counterexample to C4 as stated: with seeds entity 1 and entity 2
both one hop from entity 3, the traversal returns the item
`(entity, 3)` twice — once per seed root — because the SQL groups by
`root_id` in addition to the item columns; items are NOT deduplicated by
`(type, id)` alone. -/
theorem find_connected_duplicate_item :
    ((Context.find_connected Examples.exIdx Examples.exPairs 1 none).filter
        (fun c => decide (c.row.item_type = Context.ItemType.entity ∧ c.row.id = 3))).map
      (fun c => c.root_id) = [1, 2] := by
  decide

/-- Witness for C4 (amended) at the concrete index `exIdx`: the row for
entity 3 reached from root 1 is within the depth bound and occurs at CTE
depth 1. -/
theorem find_connected_dedup_min_depth_witness :
    (1 : Nat) ≤ 1 ∧
    (Examples.sie3, 1) ∈ Context.cgLevel Examples.exIdx Examples.exPairs none 1 :=
  let X := (find_connected_dedup_min_depth Examples.exIdx Examples.exPairs 1 none
    (by decide)).2 { row := Examples.sie3, depth := 1, root_id := 1 } (by decide)
  ⟨X.1, X.2.1⟩

/-- C5: a `memory://` URI that resolves to no matching items yields a
well-formed context whose primary and related lists are both empty with
zeroed counts; missing data never raises. -/
theorem build_context_missing_data (search : Context.SearchQuery → List Context.SIRow)
    (idx : List Context.SIRow) (uri : String) (url : Context.MemoryUrl) (depth : Nat)
    (since : Option Nat) (h : ∀ q, search q = []) :
    (Context.build_context search idx uri url depth since).primary_entities = [] ∧
    (Context.build_context search idx uri url depth since).related_entities = [] ∧
    (Context.build_context search idx uri url depth since).matched_entities = 0 ∧
    (Context.build_context search idx uri url depth since).total_entities = 0 ∧
    (Context.build_context search idx uri url depth since).total_relations = 0 := by
  cases url <;>
    simp [Context.build_context, Context.find_related, Context.find_connected, h]

/-- Witness for C5: a concrete search function with no matches and a
concrete unresolvable URI. -/
theorem build_context_missing_data_witness :
    (Context.build_context (fun _ => []) [] "memory://missing/permalink"
        (Context.MemoryUrl.permalink "missing/permalink") 2 none).primary_entities = [] ∧
    (Context.build_context (fun _ => []) [] "memory://missing/permalink"
        (Context.MemoryUrl.permalink "missing/permalink") 2 none).related_entities = [] :=
  ⟨(build_context_missing_data (fun _ => []) [] "memory://missing/permalink"
      (Context.MemoryUrl.permalink "missing/permalink") 2 none (fun _ => rfl)).1,
   (build_context_missing_data (fun _ => []) [] "memory://missing/permalink"
      (Context.MemoryUrl.permalink "missing/permalink") 2 none (fun _ => rfl)).2.1⟩
